import Mathlib

/-
Shallow embedding of the PCR (put/call ratio) core of `src/pcr_mood.py`:
the recency-filtered option-chain aggregator `get_recent_options`
(lines 38-63), the PCR computation inside `update_output`
(lines 204-222), and the fixed four-ticker subplot batch loop
(lines 226-279).

Modelling conventions:
- Timestamps are `Int` seconds; a `pd.Timedelta(hours=h)` is `3600 * h`
  seconds.  A `lastTradeDate` cell after `pd.to_datetime(..., errors='coerce')`
  is `Option Int`: `none` models `NaT` (missing or unparseable), and the
  pandas comparison `NaT > cutoff` is `False`.
- A `volume` / `openInterest` cell is `Option Nat`: `none` models `NaN`,
  which pandas `.sum()` skips (treats as 0).
- A per-expiration `ticker_obj.option_chain(expiry)` call that raises
  (network error, malformed response, missing `lastTradeDate` column) is a
  fetch function returning `none` for that expiry.
- `pd.concat(lst) if lst else pd.DataFrame()` makes an empty combined
  table one with NO columns, so `df['openInterest']` / `df['volume']`
  on it raises `KeyError`; the `PCRDisplay.errorComputing` constructor
  models the `except` branch (line 221-222) that catches it.
-/

namespace PCRMood

/-- One option-contract row, as consumed by the core after the
`pd.to_datetime(..., errors='coerce')` conversion. -/
structure OptionRow where
  lastTradeDate : Option Int
  volume : Option Nat
  openInterest : Option Nat
deriving DecidableEq, Repr

/-- The pair `(chain.calls, chain.puts)` returned by
`ticker_obj.option_chain(expiry)` for one expiry. -/
structure OptionChainSnapshot where
  calls : List OptionRow
  puts : List OptionRow
deriving DecidableEq, Repr

/-- The combined `(calls_all, puts_all)` pair returned by
`get_recent_options` (lines 61-63). -/
structure RecentChainSet where
  calls : List OptionRow
  puts : List OptionRow
deriving DecidableEq, Repr

/-- The row predicate of `calls_df[calls_df['lastTradeDate'] > cutoff]`
(lines 53-54): `NaT` (here `none`) compares as not-greater. -/
def isRecent (cutoff : Int) (r : OptionRow) : Bool :=
  match r.lastTradeDate with
  | some t => cutoff < t
  | none => false

/-- The recency filter `df[df['lastTradeDate'] > cutoff]` on one table. -/
def filterRecent (cutoff : Int) (rows : List OptionRow) : List OptionRow :=
  rows.filter (isRecent cutoff)

/-- `cutoff = pd.Timestamp.now(tz='UTC') - pd.Timedelta(hours=hours)`
(line 40), with `now` the instant at which aggregation starts. -/
def cutoffTime (now : Int) (hours : Nat) : Int := now - 3600 * (hours : Int)

/-- The default `hours=96` of `def get_recent_options(ticker_obj, hours=96)`
(line 38); both call sites (lines 204, 252) also pass `hours=96`. -/
def defaultRecencyHours : Nat := 96

/-- One iteration of the `for expiry in ticker_obj.options` loop
(lines 44-60): on a fetch failure (`fetch expiry = none`, the `except`
branch) the accumulators are left unchanged; on success the recency-filtered
calls and puts tables are appended when non-empty (lines 55-58). -/
def aggStep (fetch : String → Option OptionChainSnapshot) (cutoff : Int)
    (acc : List OptionRow × List OptionRow) (expiry : String) :
    List OptionRow × List OptionRow :=
  match fetch expiry with
  | none => acc
  | some chain =>
    let callsRecent := filterRecent cutoff chain.calls
    let putsRecent := filterRecent cutoff chain.puts
    (if callsRecent.isEmpty then acc.1 else acc.1 ++ callsRecent,
     if putsRecent.isEmpty then acc.2 else acc.2 ++ putsRecent)

/-- `get_recent_options` (lines 38-63): compute the cutoff once, loop over
the expirations, and concatenate the accumulated per-expiry tables
(`pd.concat(calls_list) if calls_list else pd.DataFrame()`). -/
def get_recent_options (fetch : String → Option OptionChainSnapshot)
    (expiries : List String) (now : Int) (hours : Nat) : RecentChainSet :=
  let cutoff := cutoffTime now hours
  let acc := expiries.foldl (aggStep fetch cutoff) ([], [])
  ⟨acc.1, acc.2⟩

/-- `df['volume'].sum()` over a non-empty combined table: pandas sums the
column skipping `NaN`, i.e. treating an absent volume as 0. -/
def sumVolume (rows : List OptionRow) : Nat :=
  rows.foldl (fun acc r => acc + r.volume.getD 0) 0

/-- Outcome of the PCR block of `update_output` (lines 205-222):
`noRecentOptions` is the "No options traded in the last 96 hours" message
(line 206), `errorComputing` is the `except` branch (lines 221-222) reached
when a column access on an empty combined table raises `KeyError`, and
`pcr c p ratio` is the computed result with `ratio = none` rendered as
"PCR (Volume): N/A" (line 220). -/
inductive PCRDisplay where
  | noRecentOptions
  | errorComputing
  | pcr (totalCallVolume totalPutVolume : Nat) (ratio : Option ℚ)
deriving DecidableEq, Repr

/-- Lines 205-220 of `update_output`: if both combined tables are empty,
report no recent options; otherwise access the `openInterest` and `volume`
columns — which raises `KeyError` when either table is the empty
`pd.DataFrame()` (no columns) — sum the volumes, and divide put volume by
call volume unless the latter is 0 (`pcr_vol = ... if total_call_vol != 0
else None`). -/
def computePCR (calls puts : List OptionRow) : PCRDisplay :=
  if calls.isEmpty && puts.isEmpty then .noRecentOptions
  else if calls.isEmpty || puts.isEmpty then .errorComputing
  else
    let c := sumVolume calls
    let p := sumVolume puts
    if c = 0 then .pcr c p none
    else .pcr c p (some ((p : ℚ) / (c : ℚ)))

/-- The per-ticker data the subplot loop (lines 231-272) pulls from the
external source: the ticker's expiration list (`ticker_obj.options`) and
the per-expiry chain fetch.  A whole-ticker fetch failure — `yf.Ticker`,
the history call, or the expiration-list access raising — is modelled by
the environment returning `none` for that ticker. -/
structure TickerData where
  expiries : List String
  chains : String → Option OptionChainSnapshot

/-- Outcome of one iteration of the subplot loop: either the PCR line
appended to `subplot_pcr_info` (the `try` branch completed) or the
"{sub_ticker} - Error: ..." line of the `except` branch (lines 271-272). -/
inductive TickerOutcome where
  | success (display : PCRDisplay)
  | failure
deriving DecidableEq, Repr

/-- The body of one subplot-loop iteration (lines 232-272) for one ticker:
a whole-ticker fetch failure hits the `except` branch; otherwise the
ticker's chains are aggregated with the 96-hour window and the PCR block
(lines 253-270) runs.  A `KeyError` from a column access on an empty
combined table is also caught by the same per-ticker `except` branch. -/
def processTicker (env : String → Option TickerData) (now : Int)
    (t : String) : TickerOutcome :=
  match env t with
  | none => .failure
  | some d =>
    let cs := get_recent_options d.chains d.expiries now defaultRecencyHours
    match computePCR cs.calls cs.puts with
    | .errorComputing => .failure
    | disp => .success disp

/-- The `for sub_ticker in subplot_tickers` loop (lines 231-279): strictly
sequential, one outcome appended per ticker, in input order. -/
def runBatch (env : String → Option TickerData) (now : Int) :
    List String → List TickerOutcome
  | [] => []
  | t :: ts => processTicker env now t :: runBatch env now ts

/-- `subplot_tickers = ["AMZN", "AAPL", "NVDA", "TSLA"]` (line 226). -/
def subplotTickers : List String := ["AMZN", "AAPL", "NVDA", "TSLA"]

/-- An environment in which ticker `b`'s whole-ticker fetch fails and every
other ticker behaves as in `env`. -/
def failAt (env : String → Option TickerData) (b : String) :
    String → Option TickerData :=
  fun t => if t = b then none else env t

/-- Externally visible events of the batch loop, for the temporal claims:
each iteration performs one ticker's fetch sequence; a `pause` event would
be a sleep call between iterations. -/
inductive BatchEvent where
  | fetchSeq (ticker : String)
  | pause (seconds : Nat)
deriving DecidableEq, Repr

/-- Whether a batch event is a rate-limit pause. -/
def isPause : BatchEvent → Bool
  | .pause _ => true
  | .fetchSeq _ => false

/-- Event trace of the subplot loop (lines 231-279): the loop body performs
the ticker's fetch sequence and contains no sleep call (the module never
imports `time`), so each iteration contributes exactly one `fetchSeq` event
and no `pause` event. -/
def batchTrace : List String → List BatchEvent
  | [] => []
  | t :: ts => BatchEvent.fetchSeq t :: batchTrace ts

/-- A one-expiration scenario source: call volumes 100 and 50 and put
volume 30, all traded at instant 100. -/
def scenarioFetch : String → Option OptionChainSnapshot :=
  fun _ => some ⟨[⟨some 100, some 100, some 1⟩, ⟨some 100, some 50, some 1⟩],
                 [⟨some 100, some 30, some 1⟩]⟩

/-- The scenario's aggregated recent chain set, at aggregation instant 200
with the 96-hour window (every row is inside the window). -/
def scenarioSet : RecentChainSet :=
  get_recent_options scenarioFetch ["e1"] 200 96

/-- Membership in a recency-filtered table implies the row predicate. -/
theorem mem_filterRecent_recent {cutoff : Int} {r : OptionRow}
    {rows : List OptionRow} (h : r ∈ filterRecent cutoff rows) :
    isRecent cutoff r = true :=
  (List.mem_filter.mp h).2

/-- A loop iteration whose fetch raises leaves the accumulators unchanged. -/
theorem aggStep_none {fetch : String → Option OptionChainSnapshot}
    {cutoff : Int} (acc : List OptionRow × List OptionRow) {e : String}
    (h : fetch e = none) : aggStep fetch cutoff acc e = acc := by
  simp [aggStep, h]

/-- A row of the first accumulator after one loop iteration was either
already accumulated or passed the recency filter. -/
theorem mem_aggStep_fst {fetch : String → Option OptionChainSnapshot}
    {cutoff : Int} {acc : List OptionRow × List OptionRow} {e : String}
    {r : OptionRow} (h : r ∈ (aggStep fetch cutoff acc e).1) :
    r ∈ acc.1 ∨ isRecent cutoff r = true := by
  cases hf : fetch e with
  | none => rw [aggStep_none acc hf] at h; exact Or.inl h
  | some chain =>
    simp only [aggStep, hf] at h
    by_cases hemp : (filterRecent cutoff chain.calls).isEmpty
    · rw [if_pos hemp] at h; exact Or.inl h
    · rw [if_neg hemp] at h
      rcases List.mem_append.mp h with h1 | h1
      · exact Or.inl h1
      · exact Or.inr (mem_filterRecent_recent h1)

/-- A row of the second accumulator after one loop iteration was either
already accumulated or passed the recency filter. -/
theorem mem_aggStep_snd {fetch : String → Option OptionChainSnapshot}
    {cutoff : Int} {acc : List OptionRow × List OptionRow} {e : String}
    {r : OptionRow} (h : r ∈ (aggStep fetch cutoff acc e).2) :
    r ∈ acc.2 ∨ isRecent cutoff r = true := by
  cases hf : fetch e with
  | none => rw [aggStep_none acc hf] at h; exact Or.inl h
  | some chain =>
    simp only [aggStep, hf] at h
    by_cases hemp : (filterRecent cutoff chain.puts).isEmpty
    · rw [if_pos hemp] at h; exact Or.inl h
    · rw [if_neg hemp] at h
      rcases List.mem_append.mp h with h1 | h1
      · exact Or.inl h1
      · exact Or.inr (mem_filterRecent_recent h1)

/-- Every row the expiry loop accumulates on top of `acc` passes the
recency filter. -/
theorem mem_foldl_aggStep (fetch : String → Option OptionChainSnapshot)
    (cutoff : Int) (es : List String) :
    ∀ (acc : List OptionRow × List OptionRow) (r : OptionRow),
      (r ∈ (es.foldl (aggStep fetch cutoff) acc).1 →
        r ∈ acc.1 ∨ isRecent cutoff r = true) ∧
      (r ∈ (es.foldl (aggStep fetch cutoff) acc).2 →
        r ∈ acc.2 ∨ isRecent cutoff r = true) := by
  induction es with
  | nil => exact fun acc r => ⟨Or.inl, Or.inl⟩
  | cons e es ih =>
    intro acc r
    constructor
    · intro h
      rcases (ih (aggStep fetch cutoff acc e) r).1 (by simpa using h) with h1 | h1
      · rcases mem_aggStep_fst h1 with h2 | h2
        · exact Or.inl h2
        · exact Or.inr h2
      · exact Or.inr h1
    · intro h
      rcases (ih (aggStep fetch cutoff acc e) r).2 (by simpa using h) with h1 | h1
      · rcases mem_aggStep_snd h1 with h2 | h2
        · exact Or.inl h2
        · exact Or.inr h2
      · exact Or.inr h1

/-- Dropping the expirations whose fetch raises does not change the fold:
those iterations leave the accumulators untouched. -/
theorem foldl_aggStep_filter (fetch : String → Option OptionChainSnapshot)
    (cutoff : Int) (es : List String) :
    ∀ acc, (es.filter (fun e => (fetch e).isSome)).foldl
        (aggStep fetch cutoff) acc
      = es.foldl (aggStep fetch cutoff) acc := by
  induction es with
  | nil => intro acc; rfl
  | cons e es ih =>
    intro acc
    cases hf : fetch e with
    | none =>
      rw [List.filter_cons, List.foldl_cons, aggStep_none acc hf]
      simp only [hf, Option.isSome_none]
      exact ih acc
    | some chain =>
      rw [List.filter_cons, List.foldl_cons]
      simp only [hf, Option.isSome_some, if_pos, List.foldl_cons]
      exact ih _

/-- `sumVolume` with a running total is the total plus the mapped sum. -/
theorem sumVolume_foldl_eq (rows : List OptionRow) :
    ∀ n : Nat, rows.foldl (fun acc r => acc + r.volume.getD 0) n
      = n + (rows.map (fun r => r.volume.getD 0)).sum := by
  induction rows with
  | nil => intro n; simp
  | cons r rows ih =>
    intro n
    simp only [List.foldl_cons, List.map_cons, List.sum_cons, ih]
    omega

/-- The volume total is the sum of the per-row volumes, absent volume
counted as 0. -/
theorem sumVolume_eq_sum_map (rows : List OptionRow) :
    sumVolume rows = (rows.map (fun r => r.volume.getD 0)).sum := by
  simpa using sumVolume_foldl_eq rows 0

/-- The recency predicate holds exactly on rows with a present timestamp
strictly after the cutoff. -/
theorem isRecent_true_iff {cutoff : Int} {r : OptionRow} :
    isRecent cutoff r = true ↔
      ∃ t, r.lastTradeDate = some t ∧ cutoff < t := by
  cases hr : r.lastTradeDate with
  | none => simp [isRecent, hr]
  | some t => simp [isRecent, hr]

/-- Claim C6 (confirmed): for every input row sequence and cutoff, the
recency filter returns exactly the subsequence of rows whose
`lastTradeDate` is strictly greater than the cutoff, preserving input
order (the output is a sublist of the input), and rows whose timestamp is
missing or unparseable (`none` after the coercing conversion) are excluded
from the output; the filter is a total function, so no error is raised. -/
theorem filterRecent_spec (rows : List OptionRow) (cutoff : Int) :
    List.Sublist (filterRecent cutoff rows) rows ∧
    (∀ r, r ∈ filterRecent cutoff rows ↔
      r ∈ rows ∧ ∃ t, r.lastTradeDate = some t ∧ cutoff < t) ∧
    (∀ r, r.lastTradeDate = none → r ∉ filterRecent cutoff rows) := by
  refine ⟨List.filter_sublist rows, fun r => ?_, fun r hr hmem => ?_⟩
  · rw [filterRecent, List.mem_filter, isRecent_true_iff]
  · have h2 := mem_filterRecent_recent hmem
    rcases isRecent_true_iff.mp h2 with ⟨t, ht, _⟩
    rw [hr] at ht
    exact Option.noConfusion ht

/-- Claim C6 witness: a row with a missing timestamp is excluded from the
filtered output. -/
theorem filterRecent_spec_witness :
    (⟨none, some 5, none⟩ : OptionRow) ∉
      filterRecent 0 [⟨none, some 5, none⟩, ⟨some 7, some 2, none⟩] :=
  (filterRecent_spec [⟨none, some 5, none⟩, ⟨some 7, some 2, none⟩] 0).2.2
    ⟨none, some 5, none⟩ rfl

/-- Claim C8 (confirmed): the recency filter is idempotent — applying it
twice with the same cutoff yields the same output as applying it once. -/
theorem filterRecent_idempotent (rows : List OptionRow) (cutoff : Int) :
    filterRecent cutoff (filterRecent cutoff rows)
      = filterRecent cutoff rows := by
  unfold filterRecent
  induction rows with
  | nil => rfl
  | cons r rows ih =>
    rw [List.filter_cons]
    by_cases h : isRecent cutoff r
    · rw [if_pos h, List.filter_cons, if_pos h, ih]
    · rw [if_neg h, ih]

/-- Claim C3 (confirmed): the aggregation over a ticker's expirations
equals the aggregation over just the expirations whose fetch succeeds —
each failed per-expiration fetch (exception, malformed table, missing
column, all modelled as `fetch e = none`) is recorded and skipped, never
aborting the ticker, and the returned `RecentChainSet` is built from
exactly the successful expirations. -/
theorem get_recent_options_skips_failed_expirations
    (fetch : String → Option OptionChainSnapshot) (expiries : List String)
    (now : Int) (hours : Nat) :
    get_recent_options fetch expiries now hours
      = get_recent_options fetch
          (expiries.filter (fun e => (fetch e).isSome)) now hours := by
  simp only [get_recent_options]
  rw [foldl_aggStep_filter]

/-- Claim C10 (confirmed): per-expiration processing is all-or-nothing —
an expiration whose processing fails contributes no rows to either
accumulator, and the rows accumulated from the surrounding expirations
are exactly what they would be with the failing expiration absent. -/
theorem get_recent_options_failed_expiry_drops_out
    (fetch : String → Option OptionChainSnapshot)
    (es1 es2 : List String) (e : String) (now : Int) (hours : Nat)
    (hf : fetch e = none) :
    get_recent_options fetch (es1 ++ e :: es2) now hours
      = get_recent_options fetch (es1 ++ es2) now hours := by
  simp only [get_recent_options]
  rw [List.foldl_append, List.foldl_append, List.foldl_cons,
    aggStep_none _ hf]

/-- Claim C10 witness: with a concrete fetch in which only expiry "BAD"
fails, the aggregation over ["G1", "BAD", "G2"] equals the aggregation
over ["G1", "G2"]. -/
theorem get_recent_options_failed_expiry_drops_out_witness :
    get_recent_options
        (fun e => if e = "BAD" then none
          else some ⟨[⟨some 100, some 10, some 1⟩], [⟨some 100, some 4, some 1⟩]⟩)
        (["G1"] ++ "BAD" :: ["G2"]) 200 96
      = get_recent_options
          (fun e => if e = "BAD" then none
            else some ⟨[⟨some 100, some 10, some 1⟩], [⟨some 100, some 4, some 1⟩]⟩)
          (["G1"] ++ ["G2"]) 200 96 :=
  get_recent_options_failed_expiry_drops_out _ ["G1"] ["G2"] "BAD" 200 96
    (by decide)

/-- Claim C9 (confirmed): aggregating a ticker with zero listed
expirations returns an empty `RecentChainSet` (empty calls and empty puts)
rather than an error, the subplot loop turns that empty result into the
"no options traded" success outcome, and that valid empty-result outcome
is distinct from the fetch-failure outcome. -/
theorem aggregate_zero_expirations :
    (∀ (fetch : String → Option OptionChainSnapshot) (now : Int)
        (hours : Nat), get_recent_options fetch [] now hours = ⟨[], []⟩) ∧
    (∀ (env : String → Option TickerData) (now : Int) (t : String)
        (d : TickerData), env t = some d → d.expiries = [] →
      processTicker env now t
        = TickerOutcome.success PCRDisplay.noRecentOptions) ∧
    TickerOutcome.success PCRDisplay.noRecentOptions
      ≠ TickerOutcome.failure := by
  refine ⟨fun fetch now hours => rfl, ?_, by simp⟩
  intro env now t d henv hexp
  simp only [processTicker, henv, hexp]
  rfl

/-- Claim C9 witness: a concrete environment in which ticker "XYZ" lists
no expirations yields the no-recent-options success outcome. -/
theorem aggregate_zero_expirations_witness :
    processTicker (fun _ => some ⟨[], fun _ => none⟩) 0 "XYZ"
      = TickerOutcome.success PCRDisplay.noRecentOptions :=
  aggregate_zero_expirations.2.1 (fun _ => some ⟨[], fun _ => none⟩) 0 "XYZ"
    ⟨[], fun _ => none⟩ rfl rfl

/-- Claim C7 (confirmed): the default recency window is 96 hours, the
cutoff is the aggregation-start instant minus the window, computed once
and shared by all expirations, and every row of the returned
`RecentChainSet` (calls and puts alike) has a present `lastTradeDate`
strictly greater than that single cutoff. -/
theorem aggregate_recency_invariant :
    defaultRecencyHours = 96 ∧
    cutoffTime 0 defaultRecencyHours = -(3600 * 96) ∧
    ∀ (fetch : String → Option OptionChainSnapshot) (expiries : List String)
      (now : Int) (r : OptionRow),
      (r ∈ (get_recent_options fetch expiries now defaultRecencyHours).calls →
        ∃ t, r.lastTradeDate = some t ∧ cutoffTime now defaultRecencyHours < t) ∧
      (r ∈ (get_recent_options fetch expiries now defaultRecencyHours).puts →
        ∃ t, r.lastTradeDate = some t ∧ cutoffTime now defaultRecencyHours < t) := by
  refine ⟨rfl, by norm_num [cutoffTime, defaultRecencyHours], ?_⟩
  intro fetch expiries now r
  constructor
  · intro h
    simp only [get_recent_options] at h
    rcases (mem_foldl_aggStep fetch (cutoffTime now defaultRecencyHours)
        expiries ([], []) r).1 h with h1 | h1
    · exact absurd h1 (List.not_mem_nil r)
    · exact isRecent_true_iff.mp h1
  · intro h
    simp only [get_recent_options] at h
    rcases (mem_foldl_aggStep fetch (cutoffTime now defaultRecencyHours)
        expiries ([], []) r).2 h with h1 | h1
    · exact absurd h1 (List.not_mem_nil r)
    · exact isRecent_true_iff.mp h1

/-- Claim C7 witness: a concrete aggregated call row has a timestamp
strictly after the shared 96-hour cutoff. -/
theorem aggregate_recency_invariant_witness :
    ∃ t, (⟨some 1, some 5, none⟩ : OptionRow).lastTradeDate = some t ∧
      cutoffTime 0 defaultRecencyHours < t :=
  (aggregate_recency_invariant.2.2
      (fun _ => some ⟨[⟨some 1, some 5, none⟩], []⟩) ["e1"] 0
      ⟨some 1, some 5, none⟩).1 (by decide)

/-- Claim C1 counterexample: with an empty call table and a non-empty put
table (one put row of volume 30), the PCR block raises a `KeyError` on the
empty combined call table (which has no columns) and lands in the
error branch — it does not yield a result with an undefined ratio. -/
theorem computePCR_empty_calls_errors :
    computePCR [] [⟨some 0, some 30, some 1⟩] = PCRDisplay.errorComputing ∧
    computePCR [] [⟨some 0, some 30, some 1⟩]
      ≠ PCRDisplay.pcr 0 30 none :=
  ⟨rfl, fun h => PCRDisplay.noConfusion h⟩

/-- Claim C1 (corrected): when both the combined call and put tables are
non-empty, the PCR computation returns a result whose ratio is the
undefined sentinel (rendered "N/A") iff `totalCallVolume = 0`; when
exactly one of the two tables is empty the code instead raises a
`KeyError` caught as an error message, so the iff holds only on the
both-non-empty domain. -/
theorem computePCR_undefined_iff_zero_call_volume
    (calls puts : List OptionRow) (hc : calls ≠ []) (hp : puts ≠ []) :
    computePCR calls puts
      = PCRDisplay.pcr (sumVolume calls) (sumVolume puts)
          (if sumVolume calls = 0 then none
           else some ((sumVolume puts : ℚ) / (sumVolume calls : ℚ))) ∧
    (computePCR calls puts
        = PCRDisplay.pcr (sumVolume calls) (sumVolume puts) none
      ↔ sumVolume calls = 0) := by
  cases calls with
  | nil => exact absurd rfl hc
  | cons c cs =>
    cases puts with
    | nil => exact absurd rfl hp
    | cons p ps =>
      by_cases h0 : sumVolume (c :: cs) = 0
      · simp [computePCR, h0]
      · simp [computePCR, h0]

/-- Claim C1 witness: non-empty call and put tables whose call volume
totals 0 yield the undefined-ratio (N/A) result. -/
theorem computePCR_undefined_iff_zero_call_volume_witness :
    computePCR [⟨some 0, some 0, none⟩] [⟨some 0, some 30, none⟩]
      = PCRDisplay.pcr 0 30 none :=
  (computePCR_undefined_iff_zero_call_volume
      [⟨some 0, some 0, none⟩] [⟨some 0, some 30, none⟩]
      (by simp) (by simp)).2.mpr rfl

/-- Claim C5 counterexample: with call rows of positive total volume but
an empty put table, the PCR block raises a `KeyError` on the empty
combined put table and lands in the error branch — no ratio
`totalPutVolume / totalCallVolume` is produced even though
`totalCallVolume > 0`. -/
theorem computePCR_empty_puts_errors :
    computePCR [⟨some 0, some 100, some 1⟩] [] = PCRDisplay.errorComputing ∧
    computePCR [⟨some 0, some 100, some 1⟩] []
      ≠ PCRDisplay.pcr 100 0 (some ((0 : ℚ) / (100 : ℚ))) :=
  ⟨rfl, fun h => PCRDisplay.noConfusion h⟩

/-- Claim C5 (corrected): provided both combined tables are non-empty,
`totalCallVolume` is the sum of the volume field over all call rows and
`totalPutVolume` over all put rows, absent/null volume counted as 0, and
the ratio is `totalPutVolume / totalCallVolume` whenever
`totalCallVolume > 0`. -/
theorem computePCR_volume_sums_and_ratio
    (calls puts : List OptionRow) (hc : calls ≠ []) (hp : puts ≠ []) :
    sumVolume calls = (calls.map (fun r => r.volume.getD 0)).sum ∧
    sumVolume puts = (puts.map (fun r => r.volume.getD 0)).sum ∧
    (sumVolume calls ≠ 0 →
      computePCR calls puts
        = PCRDisplay.pcr (sumVolume calls) (sumVolume puts)
            (some ((sumVolume puts : ℚ) / (sumVolume calls : ℚ)))) := by
  refine ⟨sumVolume_eq_sum_map calls, sumVolume_eq_sum_map puts, ?_⟩
  intro h0
  cases calls with
  | nil => exact absurd rfl hc
  | cons c cs =>
    cases puts with
    | nil => exact absurd rfl hp
    | cons p ps => simp [computePCR, h0]

/-- Claim C5 witness: call volumes [100, 50] and put volume [30], all
traded within the 96-hour window, aggregate to
`totalCallVolume = 150`, `totalPutVolume = 30`, ratio `0.20`. -/
theorem computePCR_volume_sums_and_ratio_witness :
    computePCR scenarioSet.calls scenarioSet.puts
      = PCRDisplay.pcr 150 30 (some (0.2 : ℚ)) := by
  have h := (computePCR_volume_sums_and_ratio
      scenarioSet.calls scenarioSet.puts
      (by decide) (by decide)).2.2 (by decide)
  have e1 : sumVolume scenarioSet.calls = 150 := by decide
  have e2 : sumVolume scenarioSet.puts = 30 := by decide
  rw [h, e1, e2]
  norm_num

/-- Claim C2 counterexample: the loop over the fixed four tickers emits
zero pause events — not the claimed three — because its body contains no
sleep call at all. -/
theorem batchTrace_pause_count_cx :
    (batchTrace subplotTickers).countP isPause = 0 ∧
    ¬ (batchTrace subplotTickers).countP isPause = 3 := by
  exact ⟨rfl, by decide⟩

/-- Claim C2 (corrected): the batch loop processes the fixed sequence of
4 tickers sequentially in input order with no pause at all between
successive tickers' fetch sequences — the code inserts no inter-ticker
delay (there is no sleep call), so zero pauses occur, not three. -/
theorem batchTrace_sequential_no_pauses :
    (∀ tickers : List String, (batchTrace tickers).countP isPause = 0) ∧
    batchTrace subplotTickers
      = [BatchEvent.fetchSeq "AMZN", BatchEvent.fetchSeq "AAPL",
         BatchEvent.fetchSeq "NVDA", BatchEvent.fetchSeq "TSLA"] := by
  refine ⟨?_, rfl⟩
  intro tickers
  induction tickers with
  | nil => rfl
  | cons t ts ih => simpa [batchTrace, List.countP_cons, isPause] using ih

/-- Claim C4 (confirmed): the batch runs sequentially over the tickers in
input order, yielding exactly one outcome per ticker (the batch is never
halted), and outcomes are independent: in the environment where ticker
`b`'s whole-ticker fetch fails, `b`'s outcome is the whole-ticker failure
while every other ticker's outcome is exactly the success/failure value it
has in the unmodified environment. -/
theorem runBatch_per_ticker_isolation
    (env : String → Option TickerData) (now : Int)
    (tickers : List String) (b : String) :
    runBatch env now tickers = tickers.map (processTicker env now) ∧
    runBatch (failAt env b) now tickers
      = tickers.map (fun t => if t = b then TickerOutcome.failure
          else processTicker env now t) := by
  constructor
  · induction tickers with
    | nil => rfl
    | cons t ts ih => rw [runBatch, List.map_cons, ih]
  · induction tickers with
    | nil => rfl
    | cons t ts ih =>
      rw [runBatch, List.map_cons, ih]
      congr 1
      by_cases ht : t = b
      · simp [processTicker, failAt, ht]
      · simp [processTicker, failAt, ht]

end PCRMood
